import Mathlib

/-!
Formal model of the gambling-tracker session engine
(`src/hooks/useGameSession.js` and the majority-round computation of
`src/components/BankerBoard.jsx`), as a shallow embedding in Lean 4.

Money-valued quantities (`base_amount`, `current_net`, `last_action_amount`)
are modelled as rationals, multipliers as integers.  Asynchronous remote
writes are modelled by passing the outcome of the write (success or
failure) as an explicit boolean parameter; the backing store is an explicit
structure of room rows and player rows.
-/

namespace GamblingTracker

/-! ## Single-player store (`singlePlayerAction`, `singlePlayerUndo`) -/

/-- The single-player local state: `singleBase`, `singleNet`,
`singleLastAction` in the source hook. -/
structure SingleState where
  baseStake : ℚ
  currentNet : ℚ
  lastDelta : ℚ
deriving DecidableEq, Repr

/-- `singlePlayerAction(multiplier)`: no-op when `singleBase <= 0`,
otherwise adds `singleBase * multiplier` to the net and records it as the
last action. -/
def singlePlayerAction (m : ℤ) (s : SingleState) : SingleState :=
  if s.baseStake ≤ 0 then s
  else
    let delta := s.baseStake * (m : ℚ)
    { s with currentNet := s.currentNet + delta, lastDelta := delta }

/-- `singlePlayerUndo()`: no-op when `singleLastAction === 0`, otherwise
subtracts the last action from the net and zeroes it. -/
def singlePlayerUndo (s : SingleState) : SingleState :=
  if s.lastDelta = 0 then s
  else { s with currentNet := s.currentNet - s.lastDelta, lastDelta := 0 }

/-- A call in a single-player session trace: `applyAction m` or `undo`. -/
inductive SingleCall where
  | apply (m : ℤ)
  | undo
deriving DecidableEq, Repr

/-- Run a sequence of single-player calls from a starting state. -/
def runSingle (s : SingleState) : List SingleCall → SingleState
  | [] => s
  | SingleCall.apply m :: rest => runSingle (singlePlayerAction m s) rest
  | SingleCall.undo :: rest => runSingle (singlePlayerUndo s) rest

theorem runSingle_append (a b : List SingleCall) :
    ∀ s : SingleState, runSingle s (a ++ b) = runSingle (runSingle s a) b := by
  induction a with
  | nil => intro s; rfl
  | cons c rest ih =>
      intro s
      cases c <;> simp [runSingle, ih]

theorem runSingle_baseStake (l : List SingleCall) :
    ∀ s : SingleState, (runSingle s l).baseStake = s.baseStake := by
  induction l with
  | nil => intro s; rfl
  | cons c rest ih =>
      intro s
      cases c <;> simp [runSingle, ih, singlePlayerAction, singlePlayerUndo] <;>
        split <;> simp

theorem undo_keeps_offset (n0 : ℚ) (x : SingleState)
    (h : x.currentNet = n0 + x.lastDelta) :
    (singlePlayerUndo x).currentNet = n0 + (singlePlayerUndo x).lastDelta := by
  unfold singlePlayerUndo
  split
  · simpa using h
  · simp [h]

theorem undo_lands (n0 : ℚ) (x : SingleState)
    (h : x.currentNet = n0 + x.lastDelta) :
    (singlePlayerUndo x).currentNet = n0 := by
  unfold singlePlayerUndo
  split
  · rename_i h0
    simpa [h0] using h
  · simp [h]

theorem runSingle_undos_offset (n0 : ℚ) (mids : List SingleCall)
    (hm : ∀ c ∈ mids, c = SingleCall.undo) :
    ∀ x : SingleState, x.currentNet = n0 + x.lastDelta →
      (runSingle x mids).currentNet = n0 + (runSingle x mids).lastDelta := by
  induction mids with
  | nil => intro x h; simpa using h
  | cons c rest ih =>
      intro x h
      have hc : c = SingleCall.undo := hm c (List.mem_cons_self c rest)
      subst hc
      have hrest : ∀ c ∈ rest, c = SingleCall.undo := by
        intro c hcmem; exact hm c (List.mem_cons_of_mem _ hcmem)
      simpa [runSingle] using ih hrest (singlePlayerUndo x) (undo_keeps_offset n0 x h)

/-- C8: in single-player mode, `applyAction(multiplier)` is a no-op when
`baseStake ≤ 0`; otherwise it adds `baseStake * multiplier` to `currentNet`
and sets `lastDelta` to `baseStake * multiplier`. -/
theorem singlePlayerAction_spec (s : SingleState) (m : ℤ) :
    (s.baseStake ≤ 0 → singlePlayerAction m s = s) ∧
    (0 < s.baseStake →
      (singlePlayerAction m s).currentNet = s.currentNet + s.baseStake * (m : ℚ) ∧
      (singlePlayerAction m s).lastDelta = s.baseStake * (m : ℚ)) := by
  constructor
  · intro h
    simp [singlePlayerAction, h]
  · intro h
    have h2 : ¬ s.baseStake ≤ 0 := not_le.mpr h
    simp [singlePlayerAction, h2]

/-- Witness for C8 at a concrete state: base 2, net 5, multiplier 3. -/
theorem singlePlayerAction_spec_witness :
    0 < (2 : ℚ) ∧
    ((singlePlayerAction 3 (⟨2, 5, 1⟩ : SingleState)).currentNet = 5 + 2 * ((3 : ℤ) : ℚ) ∧
     (singlePlayerAction 3 (⟨2, 5, 1⟩ : SingleState)).lastDelta = 2 * ((3 : ℤ) : ℚ)) :=
  ⟨by norm_num, (singlePlayerAction_spec ⟨2, 5, 1⟩ 3).2 (by norm_num)⟩

/-- C6 counterexample: with base 1, `applyAction 2` sets `lastDelta` to the
nonzero value 2; `applyAction 0` then overwrites `lastDelta` with 0 while
leaving the net at 2; the following `undo()` is therefore a no-op and the
net stays at 2, whereas the claim requires it to return to 0, the net
immediately before `applyAction 2` — the most recent `applyAction` that set
`lastDelta` to a nonzero value. -/
theorem singleUndo_nonzero_anchor_counterexample :
    (runSingle ⟨1, 0, 0⟩ [SingleCall.apply 2]).lastDelta ≠ 0 ∧
    (runSingle ⟨1, 0, 0⟩ [SingleCall.apply 2, SingleCall.apply 0]).lastDelta = 0 ∧
    (runSingle ⟨1, 0, 0⟩
        [SingleCall.apply 2, SingleCall.apply 0, SingleCall.undo]).currentNet ≠
      (⟨1, 0, 0⟩ : SingleState).currentNet := by
  norm_num [runSingle, singlePlayerAction, singlePlayerUndo]

/-- C6 amended: in any `applyAction`/`undo` sequence with positive base,
`currentNet` immediately after an `undo()` equals `currentNet` immediately
before the most recent preceding `applyAction()` call — whether or not that
call set `lastDelta` to a nonzero value (an `applyAction` with multiplier 0
sets `lastDelta` to 0 and makes the subsequent `undo` a no-op at the same
net); and `undo()` with `lastDelta == 0` never changes `currentNet`. -/
theorem singleUndo_returns_to_preaction_net (s0 : SingleState)
    (pre mids : List SingleCall) (m : ℤ)
    (hbase : 0 < s0.baseStake)
    (hmids : ∀ c ∈ mids, c = SingleCall.undo) :
    ((runSingle s0 (pre ++ SingleCall.apply m :: (mids ++ [SingleCall.undo]))).currentNet
      = (runSingle s0 pre).currentNet)
    ∧ (∀ s : SingleState, s.lastDelta = 0 →
        (singlePlayerUndo s).currentNet = s.currentNet) := by
  constructor
  · have e1 : runSingle s0 (pre ++ SingleCall.apply m :: (mids ++ [SingleCall.undo]))
        = runSingle (runSingle s0 pre) (SingleCall.apply m :: (mids ++ [SingleCall.undo])) :=
      runSingle_append pre _ s0
    rw [e1]
    set t := runSingle s0 pre with htdef
    have ht : t.baseStake = s0.baseStake := runSingle_baseStake pre s0
    have hpos : ¬ t.baseStake ≤ 0 := by
      rw [ht]; exact not_le.mpr hbase
    have e2 : runSingle t (SingleCall.apply m :: (mids ++ [SingleCall.undo]))
        = runSingle (runSingle (singlePlayerAction m t) mids) [SingleCall.undo] := by
      simp [runSingle, runSingle_append]
    rw [e2]
    have hu : (singlePlayerAction m t).currentNet
        = t.currentNet + (singlePlayerAction m t).lastDelta := by
      simp [singlePlayerAction, hpos]
    have hv := runSingle_undos_offset t.currentNet mids hmids (singlePlayerAction m t) hu
    simpa [runSingle] using undo_lands t.currentNet _ hv
  · intro s h
    simp [singlePlayerUndo, h]

/-- Witness for the amended C6: base 1, net 5, apply 3 then undo returns to
net 5. -/
theorem singleUndo_returns_to_preaction_net_witness :
    0 < (1 : ℚ) ∧
    (runSingle ⟨1, 5, 0⟩
        ([] ++ SingleCall.apply 3 :: ([] ++ [SingleCall.undo]))).currentNet
      = (runSingle ⟨1, 5, 0⟩ []).currentNet :=
  ⟨by norm_num,
   (singleUndo_returns_to_preaction_net ⟨1, 5, 0⟩ [] [] 3 (by norm_num)
     (by simp)).1⟩

/-! ## Multiplayer data model (Supabase tables and the hook's session state) -/

/-- One entry of a player's `round_history` (the objects pushed by the
player board and by `playerMassTie`). -/
structure RoundEntry where
  eid : ℕ
  multiplier : ℤ
  amount : ℚ
  time : String
deriving DecidableEq, Repr

/-- A row of the `players` table.  Primary key is `uuid`. -/
structure PlayerRec where
  uuid : String
  room_id : String
  role : String
  name : String
  base_amount : ℚ
  current_net : ℚ
  last_action_amount : ℚ
  round_history : List RoundEntry
deriving DecidableEq, Repr

/-- A row of the `rooms` table: `id` is the 4-6 digit code. -/
structure RoomRec where
  rid : String
  banker_uuid : String
  status : String
deriving DecidableEq, Repr

/-- The backing store: the `rooms` and `players` tables. -/
structure Store where
  rooms : List RoomRec
  players : List PlayerRec
deriving DecidableEq, Repr

/-- The hook's multiplayer-relevant state. -/
structure Session where
  mode : Option String
  roomId : Option String
  role : Option String
  baseAmount : ℚ
  currentNet : ℚ
  lastActionAmount : ℚ
  bankerNet : ℚ
  players : List PlayerRec
  roomStatus : Option String
  error : Option String
  loading : Bool
deriving DecidableEq, Repr

/-- The hook's initial state (all `useState` defaults). -/
def initialSession : Session :=
  ⟨none, none, none, 0, 0, 0, 0, [], none, none, false⟩

/-- `supabase.from('rooms').select('*').eq('id', code).single()`. -/
def findRoom (st : Store) (code : String) : Option RoomRec :=
  st.rooms.find? (fun r => r.rid == code)

/-- `supabase.from('players').select('*').eq('room_id', code)
.eq('uuid', deviceUUID).maybeSingle()`. -/
def findExisting (st : Store) (code dev : String) : Option PlayerRec :=
  st.players.find? (fun p => p.room_id == code && p.uuid == dev)

/-- The capacity query: count of `players` rows with `room_id = code`. -/
def roomCount (st : Store) (code : String) : ℕ :=
  (st.players.filter (fun p => p.room_id == code)).length

/-- `supabase.from('players').upsert(rec)`: the `players` primary key is
`uuid`, so an existing row for the same uuid is replaced (this is how a
device is moved out of a previous room), otherwise the row is inserted. -/
def upsertPlayer (st : Store) (rec : PlayerRec) : Store :=
  if st.players.any (fun p => p.uuid == rec.uuid) then
    { st with players := st.players.map (fun p => if p.uuid == rec.uuid then rec else p) }
  else
    { st with players := st.players ++ [rec] }

/-! ## Room operations (`createRoom`, `joinRoom`)

The outcome of each remote write is passed as an explicit boolean
(`true` = the write succeeded). -/

/-- `createRoom()`: inserts the room row (creator is banker), upserts the
banker's player record, then commits the session fields.  Any failure is
caught and turned into a non-null `error`, leaving the session fields
untouched. -/
def createRoom (dev pname code : String) (s : Session) (st : Store)
    (roomInsertOk bankerUpsertOk : Bool) : Session × Store :=
  let s0 := { s with error := none }
  if !roomInsertOk then
    ({ s0 with error := some "Failed to create room", loading := false }, st)
  else
    let st1 := { st with rooms := st.rooms ++ [⟨code, dev, "active"⟩] }
    if !bankerUpsertOk then
      ({ s0 with error := some "Failed to create room", loading := false }, st1)
    else
      let st2 := upsertPlayer st1 ⟨dev, code, "banker", pname, 0, 0, 0, []⟩
      ({ s0 with
          roomId := some code,
          role := some "banker",
          roomStatus := some "active",
          mode := some "multi",
          loading := false }, st2)

/-- `joinRoom(code)`: room lookup, ended check, reconnection check,
capacity check (≥ 15), role assignment, zeroed upsert — in that order;
every failure is caught and becomes a non-null `error` with the session
fields untouched. -/
def joinRoom (dev pname code : String) (s : Session) (st : Store)
    (upsertOk : Bool) : Session × Store :=
  let s0 := { s with error := none }
  match findRoom st code with
  | none => ({ s0 with error := some "Room not found", loading := false }, st)
  | some room =>
    if room.status ≠ "active" then
      ({ s0 with error := some "Room has ended", loading := false }, st)
    else
      match findExisting st code dev with
      | some existing =>
          ({ s0 with
              roomId := some code,
              role := some existing.role,
              baseAmount := existing.base_amount,
              currentNet := existing.current_net,
              lastActionAmount := existing.last_action_amount,
              roomStatus := some room.status,
              mode := some "multi",
              loading := false }, st)
      | none =>
          if 15 ≤ roomCount st code then
            ({ s0 with
                error := some "Room is full (max 15 players)",
                loading := false }, st)
          else
            let assignedRole :=
              if room.banker_uuid == dev then "banker" else "player"
            if !upsertOk then
              ({ s0 with
                  error := some "Failed to join room",
                  loading := false }, st)
            else
              let st1 := upsertPlayer st ⟨dev, code, assignedRole, pname, 0, 0, 0, []⟩
              ({ s0 with
                  roomId := some code,
                  role := some assignedRole,
                  roomStatus := some room.status,
                  mode := some "multi",
                  loading := false }, st1)

/-! ## Player ledger operations (`playerAction`, `playerMassTie`) and the
banker synchronizer (`fetchRoomPlayers`) -/

/-- `playerAction(multiplier)`: guarded no-op unless the role is player and
the base is positive; optimistic update of `currentNet`/`lastActionAmount`,
then the remote write; on write failure the optimistic update is rolled
back to the values captured before the call and a recoverable error is
surfaced. -/
def playerAction (m : ℤ) (s : Session) (writeOk : Bool) : Session :=
  if s.baseAmount ≤ 0 ∨ s.role ≠ some "player" then s
  else
    let delta := s.baseAmount * (m : ℚ)
    let newNet := s.currentNet + delta
    if writeOk then
      { s with currentNet := newNet, lastActionAmount := delta }
    else
      { s with
          currentNet := s.currentNet,
          lastActionAmount := s.lastActionAmount,
          error := some "Failed to update. Please try again." }

/-- The `count` tie records pushed by `playerMassTie` (each has
`multiplier: 0, amount: 0`, an id of `Date.now() + i` and a formatted
time string). -/
def tieRecords (count : ℕ) (now : ℕ) (timeStr : String) : List RoundEntry :=
  (List.range count).map (fun i => ⟨now + i, 0, 0, timeStr⟩)

/-- `playerMassTie(count, currentRoundHistory)`: no-op returning nothing
when `count ≤ 0` or the role is not player; otherwise prepends `count`
zero-value tie records to the history, zeroes `lastActionAmount`, keeps
`currentNet`, persists, and returns the augmented history.  A failed write
only sets the error message: the zeroed `lastActionAmount` is NOT rolled
back and the augmented history is still returned. -/
def playerMassTie (count : ℤ) (currentRoundHistory : List RoundEntry)
    (s : Session) (now : ℕ) (timeStr : String) (writeOk : Bool) :
    Session × Option (List RoundEntry) :=
  if count ≤ 0 ∨ s.role ≠ some "player" then (s, none)
  else
    let newRecords := tieRecords count.toNat now timeStr
    let updatedHistory := newRecords ++ currentRoundHistory
    let s1 := { s with lastActionAmount := 0 }
    if writeOk then (s1, some updatedHistory)
    else
      ({ s1 with error := some "Failed to log missing rounds. Please try again." },
       some updatedHistory)

/-- `fetchRoomPlayers` (success path): stores the fetched rows and sets the
banker's net to the negated sum of `current_net` over ALL fetched rows
(`data.reduce((sum, p) => sum + (p.current_net || 0), 0)` — note: no role
filter). -/
def fetchRoomPlayers (s : Session) (data : List PlayerRec) : Session :=
  let totalPlayerNet := data.foldl (fun sum p => sum + p.current_net) 0
  { s with players := data, bankerNet := -totalPlayerNet }

/-- A concrete in-room player session used by the witnesses. -/
def wSession : Session :=
  { initialSession with
      mode := some "multi",
      roomId := some "4821",
      role := some "player",
      baseAmount := 2,
      currentNet := 10,
      lastActionAmount := 4 }

/-- C1: for a player session with positive base, a failed remote write
during `applyAction` leaves `currentNet` and `lastActionAmount` at exactly
their pre-call values and surfaces a recoverable write-failure error; a
successful write leaves `currentNet` at the pre-call net plus
`baseAmount * multiplier` and `lastActionAmount` at that delta. -/
theorem playerAction_rollback_spec (m : ℤ) (s : Session)
    (hrole : s.role = some "player") (hbase : 0 < s.baseAmount) :
    ((playerAction m s false).currentNet = s.currentNet ∧
     (playerAction m s false).lastActionAmount = s.lastActionAmount ∧
     (playerAction m s false).error = some "Failed to update. Please try again.") ∧
    ((playerAction m s true).currentNet = s.currentNet + s.baseAmount * (m : ℚ) ∧
     (playerAction m s true).lastActionAmount = s.baseAmount * (m : ℚ)) := by
  have h1 : ¬ s.baseAmount ≤ 0 := not_le.mpr hbase
  simp [playerAction, h1, hrole]

/-- Witness for C1: base 2, net 10, multiplier 3, on both write outcomes. -/
theorem playerAction_rollback_spec_witness :
    wSession.role = some "player" ∧ 0 < wSession.baseAmount ∧
    (((playerAction 3 wSession false).currentNet = wSession.currentNet ∧
      (playerAction 3 wSession false).lastActionAmount = wSession.lastActionAmount ∧
      (playerAction 3 wSession false).error = some "Failed to update. Please try again.") ∧
     ((playerAction 3 wSession true).currentNet
        = wSession.currentNet + wSession.baseAmount * ((3 : ℤ) : ℚ) ∧
      (playerAction 3 wSession true).lastActionAmount
        = wSession.baseAmount * ((3 : ℤ) : ℚ))) :=
  ⟨rfl, by norm_num [wSession, initialSession],
   playerAction_rollback_spec 3 wSession rfl (by norm_num [wSession, initialSession])⟩

theorem take_len_append {α : Type} (a b : List α) (n : ℕ) (h : a.length = n) :
    (a ++ b).take n = a := by
  subst h
  exact List.take_left a b

theorem drop_len_append {α : Type} (a b : List α) (n : ℕ) (h : a.length = n) :
    (a ++ b).drop n = b := by
  subst h
  exact List.drop_left a b

/-- C5: for a player session and `n > 0`, `massTie(n)` returns a history
exactly `n` entries longer, with the `n` new head entries all zero-value
ties (multiplier 0, amount 0), the original history unchanged behind them,
`currentNet` unchanged and `lastActionAmount` zeroed — on either write
outcome. -/
theorem playerMassTie_spec (n : ℤ) (hist : List RoundEntry) (s : Session)
    (now : ℕ) (tstr : String) (writeOk : Bool)
    (hn : 0 < n) (hrole : s.role = some "player") :
    ∃ newHist : List RoundEntry,
      (playerMassTie n hist s now tstr writeOk).2 = some newHist ∧
      newHist.length = hist.length + n.toNat ∧
      (∀ e ∈ newHist.take n.toNat, e.multiplier = 0 ∧ e.amount = 0) ∧
      newHist.drop n.toNat = hist ∧
      (playerMassTie n hist s now tstr writeOk).1.currentNet = s.currentNet ∧
      (playerMassTie n hist s now tstr writeOk).1.lastActionAmount = 0 := by
  have hguard : ¬ (n ≤ 0 ∨ s.role ≠ some "player") := by
    rw [not_or]
    exact ⟨not_le.mpr hn, by simp [hrole]⟩
  have hlen : (tieRecords n.toNat now tstr).length = n.toNat := by
    simp [tieRecords]
  refine ⟨tieRecords n.toNat now tstr ++ hist, ?_, ?_, ?_, ?_, ?_, ?_⟩
  · cases writeOk <;> simp [playerMassTie, hguard]
  · simp [hlen, Nat.add_comm]
  · intro e he
    rw [take_len_append _ _ _ hlen] at he
    simp only [tieRecords, List.mem_map, List.mem_range] at he
    obtain ⟨i, _, rfl⟩ := he
    exact ⟨rfl, rfl⟩
  · exact drop_len_append _ _ _ hlen
  · cases writeOk <;> simp [playerMassTie, hguard]
  · cases writeOk <;> simp [playerMassTie, hguard]

/-- Witness for C5: two ties on an empty history in a player session. -/
theorem playerMassTie_spec_witness :
    0 < (2 : ℤ) ∧ wSession.role = some "player" ∧
    (∃ newHist : List RoundEntry,
      (playerMassTie 2 [] wSession 100 "12:00:00" true).2 = some newHist ∧
      newHist.length = ([] : List RoundEntry).length + (2 : ℤ).toNat ∧
      (∀ e ∈ newHist.take (2 : ℤ).toNat, e.multiplier = 0 ∧ e.amount = 0) ∧
      newHist.drop (2 : ℤ).toNat = ([] : List RoundEntry) ∧
      (playerMassTie 2 [] wSession 100 "12:00:00" true).1.currentNet
        = wSession.currentNet ∧
      (playerMassTie 2 [] wSession 100 "12:00:00" true).1.lastActionAmount = 0) :=
  ⟨by norm_num, rfl,
   playerMassTie_spec 2 [] wSession 100 "12:00:00" true (by norm_num) rfl⟩

/-- C10: unlike `applyAction` and `undo`, `massTie` does not roll back on a
failed remote write: `lastActionAmount` stays at its optimistically-zeroed
value, the augmented history with the `n` tie entries is still returned,
`currentNet` is untouched, and only the error message is set. -/
theorem playerMassTie_no_rollback (n : ℤ) (hist : List RoundEntry) (s : Session)
    (now : ℕ) (tstr : String)
    (hn : 0 < n) (hrole : s.role = some "player") :
    (playerMassTie n hist s now tstr false).1.lastActionAmount = 0 ∧
    (playerMassTie n hist s now tstr false).1.error =
      some "Failed to log missing rounds. Please try again." ∧
    (playerMassTie n hist s now tstr false).2
      = some (tieRecords n.toNat now tstr ++ hist) ∧
    (playerMassTie n hist s now tstr false).1.currentNet = s.currentNet := by
  have hguard : ¬ (n ≤ 0 ∨ s.role ≠ some "player") := by
    rw [not_or]
    exact ⟨not_le.mpr hn, by simp [hrole]⟩
  simp [playerMassTie, hguard]

/-- Witness for C10: three ties, failed write, in a player session. -/
theorem playerMassTie_no_rollback_witness :
    0 < (3 : ℤ) ∧ wSession.role = some "player" ∧
    ((playerMassTie 3 [] wSession 100 "12:00:00" false).1.lastActionAmount = 0 ∧
     (playerMassTie 3 [] wSession 100 "12:00:00" false).1.error =
       some "Failed to log missing rounds. Please try again." ∧
     (playerMassTie 3 [] wSession 100 "12:00:00" false).2
       = some (tieRecords (3 : ℤ).toNat 100 "12:00:00" ++ []) ∧
     (playerMassTie 3 [] wSession 100 "12:00:00" false).1.currentNet
       = wSession.currentNet) :=
  ⟨by norm_num, rfl,
   playerMassTie_no_rollback 3 [] wSession 100 "12:00:00" (by norm_num) rfl⟩

/-- A fetched row set whose only row is a banker record with nonzero
`current_net`. -/
def c3Data : List PlayerRec := [⟨"B", "4821", "banker", "bank", 0, 7, 0, []⟩]

/-- C3 counterexample: `fetchRoomPlayers` sums `current_net` over ALL
fetched rows, with no role filter.  On a row set containing a banker
record with `current_net = 7`, the computed banker net is `-7`, while the
negated sum over the rows whose role is `player` is `0`. -/
theorem fetchRoomPlayers_playeronly_counterexample :
    (fetchRoomPlayers initialSession c3Data).bankerNet = -7 ∧
    -(((c3Data.filter (fun p => p.role == "player")).map
        (fun p => p.current_net)).sum) = 0 ∧
    (fetchRoomPlayers initialSession c3Data).bankerNet ≠
      -(((c3Data.filter (fun p => p.role == "player")).map
          (fun p => p.current_net)).sum) := by
  have hf : c3Data.filter (fun p => p.role == "player") = [] := by decide
  refine ⟨by norm_num [fetchRoomPlayers, c3Data], ?_, ?_⟩ <;>
    rw [hf] <;> norm_num [fetchRoomPlayers, c3Data]

theorem foldl_add_current_net (l : List PlayerRec) :
    ∀ init : ℚ, l.foldl (fun sum p => sum + p.current_net) init
      = init + (l.map (fun p => p.current_net)).sum := by
  induction l with
  | nil => intro init; simp
  | cons p rest ih =>
      intro init
      simp only [List.foldl_cons, List.map_cons, List.sum_cons, ih]
      ring

theorem sum_net_eq_player_sum (data : List PlayerRec)
    (hz : ∀ p ∈ data, p.role ≠ "player" → p.current_net = 0) :
    (data.map (fun p => p.current_net)).sum
      = ((data.filter (fun p => p.role == "player")).map
          (fun p => p.current_net)).sum := by
  induction data with
  | nil => simp
  | cons p rest ih =>
      have hz' : ∀ q ∈ rest, q.role ≠ "player" → q.current_net = 0 :=
        fun q hq => hz q (List.mem_cons_of_mem _ hq)
      by_cases hp : p.role = "player"
      · simp [List.filter_cons, hp, ih hz']
      · have h0 : p.current_net = 0 := hz p (List.mem_cons_self _ _) hp
        simp [List.filter_cons, hp, h0, ih hz']

/-- C3 amended: the banker aggregate is the negation of the sum of
`current_net` over ALL fetched rows, banker record included; whenever every
non-player row carries `current_net = 0` — which is how this code creates
banker rows (zeroed on room creation) and maintains them (no mutation path
ever touches a banker row's net) — this coincides with the negated sum
over exactly the Player-role rows. -/
theorem fetchRoomPlayers_bankerNet (s : Session) (data : List PlayerRec)
    (hz : ∀ p ∈ data, p.role ≠ "player" → p.current_net = 0) :
    (fetchRoomPlayers s data).bankerNet
      = -((data.map (fun p => p.current_net)).sum) ∧
    (fetchRoomPlayers s data).bankerNet
      = -(((data.filter (fun p => p.role == "player")).map
          (fun p => p.current_net)).sum) := by
  have h1 : (fetchRoomPlayers s data).bankerNet
      = -((data.map (fun p => p.current_net)).sum) := by
    simp [fetchRoomPlayers, foldl_add_current_net]
  exact ⟨h1, by rw [h1, sum_net_eq_player_sum data hz]⟩

/-- Row set for the C3 witness: a zeroed banker row and two player rows. -/
def c3GoodData : List PlayerRec :=
  [⟨"B", "4821", "banker", "bank", 0, 0, 0, []⟩,
   ⟨"P1", "4821", "player", "a", 2, 6, 6, []⟩,
   ⟨"P2", "4821", "player", "b", 5, -10, -10, []⟩]

/-- Witness for the amended C3: banker net is `-(6 + -10) = 4`, equal to
the negated Player-only sum. -/
theorem fetchRoomPlayers_bankerNet_witness :
    (∀ p ∈ c3GoodData, p.role ≠ "player" → p.current_net = 0) ∧
    ((fetchRoomPlayers initialSession c3GoodData).bankerNet
        = -((c3GoodData.map (fun p => p.current_net)).sum) ∧
     (fetchRoomPlayers initialSession c3GoodData).bankerNet
        = -(((c3GoodData.filter (fun p => p.role == "player")).map
            (fun p => p.current_net)).sum)) := by
  have hz : ∀ p ∈ c3GoodData, p.role ≠ "player" → p.current_net = 0 := by
    intro p hp h
    simp only [c3GoodData, List.mem_cons, List.not_mem_nil, or_false] at hp
    rcases hp with rfl | rfl | rfl
    · rfl
    · exact absurd rfl h
    · exact absurd rfl h
  exact ⟨hz, fetchRoomPlayers_bankerNet initialSession c3GoodData hz⟩

/-- C4: joining with an identity that already has a participant record in
an active room is a reconnection: the call returns the record's role and
its persisted base stake, net and last delta unchanged, writes nothing to
the store, succeeds (no error), and never reaches the capacity check — the
statement holds for every store, in particular with 15 or more
participants in the room. -/
theorem joinRoom_reconnection (dev pname code : String) (s : Session)
    (st : Store) (upsertOk : Bool) (room : RoomRec) (ex : PlayerRec)
    (hroom : findRoom st code = some room)
    (hactive : room.status = "active")
    (hex : findExisting st code dev = some ex) :
    (joinRoom dev pname code s st upsertOk).1.role = some ex.role ∧
    (joinRoom dev pname code s st upsertOk).1.baseAmount = ex.base_amount ∧
    (joinRoom dev pname code s st upsertOk).1.currentNet = ex.current_net ∧
    (joinRoom dev pname code s st upsertOk).1.lastActionAmount
      = ex.last_action_amount ∧
    (joinRoom dev pname code s st upsertOk).1.roomId = some code ∧
    (joinRoom dev pname code s st upsertOk).1.error = none ∧
    (joinRoom dev pname code s st upsertOk).2 = st := by
  simp [joinRoom, hroom, hactive, hex]

/-- The room and store used by the C4 witness: a full room (21 participant
rows) in which `P1` already has a record with base 3, net 12, last delta 4. -/
def c4Room : RoomRec := ⟨"777", "B", "active"⟩

def c4Ex : PlayerRec := ⟨"P1", "777", "player", "a", 3, 12, 4, []⟩

def c4Store : Store :=
  ⟨[c4Room], c4Ex :: List.replicate 20 ⟨"Q", "777", "player", "", 0, 0, 0, []⟩⟩

/-- Witness for C4: reconnection succeeds and restores base 3, net 12,
last delta 4 even though the room holds 21 participant rows (≥ 15). -/
theorem joinRoom_reconnection_witness :
    findRoom c4Store "777" = some c4Room ∧
    c4Room.status = "active" ∧
    findExisting c4Store "777" "P1" = some c4Ex ∧
    15 ≤ roomCount c4Store "777" ∧
    ((joinRoom "P1" "a" "777" initialSession c4Store true).1.role = some c4Ex.role ∧
     (joinRoom "P1" "a" "777" initialSession c4Store true).1.baseAmount
       = c4Ex.base_amount ∧
     (joinRoom "P1" "a" "777" initialSession c4Store true).1.currentNet
       = c4Ex.current_net ∧
     (joinRoom "P1" "a" "777" initialSession c4Store true).1.lastActionAmount
       = c4Ex.last_action_amount ∧
     (joinRoom "P1" "a" "777" initialSession c4Store true).1.roomId = some "777" ∧
     (joinRoom "P1" "a" "777" initialSession c4Store true).1.error = none ∧
     (joinRoom "P1" "a" "777" initialSession c4Store true).2 = c4Store) :=
  ⟨by decide, rfl, by decide, by decide,
   joinRoom_reconnection "P1" "a" "777" initialSession c4Store true c4Room c4Ex
     (by decide) rfl (by decide)⟩

/-- Equality of the session fields C9 is about (everything except the
derived banker view, the error and the loading flag). -/
def sessionCoreEq (a b : Session) : Prop :=
  a.mode = b.mode ∧ a.roomId = b.roomId ∧ a.role = b.role ∧
  a.baseAmount = b.baseAmount ∧ a.currentNet = b.currentNet ∧
  a.lastActionAmount = b.lastActionAmount

/-- C9: failed room operations are atomic for the session: whenever
`createRoom` or `joinRoom` surfaces an error (room not found, room ended,
room full, or a failed backing-store write), the session's mode, roomId,
role, baseAmount, currentNet and lastActionAmount are exactly their
pre-call values. -/
theorem roomOps_failure_atomic (dev pname code : String) (s : Session)
    (st : Store) (rOk pOk upOk : Bool) :
    ((createRoom dev pname code s st rOk pOk).1.error ≠ none →
      sessionCoreEq (createRoom dev pname code s st rOk pOk).1 s) ∧
    ((joinRoom dev pname code s st upOk).1.error ≠ none →
      sessionCoreEq (joinRoom dev pname code s st upOk).1 s) := by
  constructor
  · intro h
    cases rOk with
    | false => simp [createRoom, sessionCoreEq]
    | true =>
        cases pOk with
        | false => simp [createRoom, sessionCoreEq]
        | true => simp [createRoom] at h
  · intro h
    cases hr : findRoom st code with
    | none => simp [joinRoom, hr, sessionCoreEq]
    | some room =>
        by_cases hs : room.status = "active"
        · cases he : findExisting st code dev with
          | some ex =>
              exfalso
              simp [joinRoom, hr, hs, he] at h
          | none =>
              by_cases hc : 15 ≤ roomCount st code
              · simp [joinRoom, hr, hs, he, hc, sessionCoreEq]
              · cases upOk with
                | false => simp [joinRoom, hr, hs, he, hc, sessionCoreEq]
                | true =>
                    exfalso
                    simp [joinRoom, hr, hs, he, hc] at h
        · simp [joinRoom, hr, hs, sessionCoreEq]

/-- Witness for C9: a failed room insert during `createRoom` and a join of
a nonexistent room both error out and leave the fresh session untouched. -/
theorem roomOps_failure_atomic_witness :
    ((createRoom "B" "n" "123" initialSession ⟨[], []⟩ false true).1.error ≠ none ∧
     sessionCoreEq (createRoom "B" "n" "123" initialSession ⟨[], []⟩ false true).1
       initialSession) ∧
    ((joinRoom "P" "n" "999" initialSession ⟨[], []⟩ true).1.error ≠ none ∧
     sessionCoreEq (joinRoom "P" "n" "999" initialSession ⟨[], []⟩ true).1
       initialSession) := by
  constructor
  · refine ⟨by decide, ?_⟩
    exact (roomOps_failure_atomic "B" "n" "123" initialSession ⟨[], []⟩ false true
      true).1 (by decide)
  · refine ⟨by decide, ?_⟩
    exact (roomOps_failure_atomic "P" "n" "999" initialSession ⟨[], []⟩ true true
      true).2 (by decide)

/-- The store right after a banker `B` creates room `4821` (one room row
and the banker's own participant record). -/
def bankerStore : Store :=
  (createRoom "B" "bank" "4821" initialSession ⟨[], []⟩ true true).2

/-- Fourteen distinct joining identities, none of them the banker. -/
def joinerIds : List String :=
  ["J01", "J02", "J03", "J04", "J05", "J06", "J07",
   "J08", "J09", "J10", "J11", "J12", "J13", "J14"]

/-- The store after the first `n` of the fourteen identities have joined
room `4821` in sequence. -/
def storeAfterJoins (n : ℕ) : Store :=
  (joinerIds.take n).foldl
    (fun acc i => (joinRoom i i "4821" initialSession acc true).2) bankerStore

/-- C2 counterexample: the banker's own participant record created by
`createRoom` counts toward the 15-row capacity, so after the banker plus
14 distinct joiners the room already holds 15 rows and the 15th distinct
joining identity `J15` — not the 16th — fails with the capacity error,
while the 14th joiner was the last to succeed. -/
theorem joinRoom_fifteenth_joiner_counterexample :
    (joinRoom "J14" "J14" "4821" initialSession (storeAfterJoins 13) true).1.error
      = none ∧
    findExisting (storeAfterJoins 14) "4821" "J15" = none ∧
    roomCount (storeAfterJoins 14) "4821" = 15 ∧
    (joinRoom "J15" "J15" "4821" initialSession (storeAfterJoins 14) true).1.error
      = some "Room is full (max 15 players)" := by
  exact ⟨by decide, by decide, by decide, by decide⟩

/-- C2 amended: the banker's own record counts toward capacity, so with a
room created by `createRoom` the 14th distinct joining identity succeeds
and the 15th fails; in general, for a non-reconnecting identity joining an
existing active room, `joinRoom` raises the capacity error exactly when
the room's participant count is at least 15 at the moment of the check. -/
theorem joinRoom_capacity_iff (dev pname code : String) (s : Session)
    (st : Store) (upsertOk : Bool) (room : RoomRec)
    (hroom : findRoom st code = some room)
    (hactive : room.status = "active")
    (hex : findExisting st code dev = none) :
    ((joinRoom dev pname code s st upsertOk).1.error
        = some "Room is full (max 15 players)") ↔ 15 ≤ roomCount st code := by
  by_cases hc : 15 ≤ roomCount st code
  · simp [joinRoom, hroom, hactive, hex, hc]
  · cases upsertOk with
    | false => simp [joinRoom, hroom, hactive, hex, hc]
    | true => simp [joinRoom, hroom, hactive, hex, hc]

/-- Witness for the amended C2: in the room with the banker and 14 joined
players, a fresh identity `J15` hits exactly the capacity error. -/
theorem joinRoom_capacity_iff_witness :
    findRoom (storeAfterJoins 14) "4821" = some (⟨"4821", "B", "active"⟩ : RoomRec) ∧
    (⟨"4821", "B", "active"⟩ : RoomRec).status = "active" ∧
    findExisting (storeAfterJoins 14) "4821" "J15" = none ∧
    ((joinRoom "J15" "J15" "4821" initialSession (storeAfterJoins 14) true).1.error
        = some "Room is full (max 15 players)" ↔
      15 ≤ roomCount (storeAfterJoins 14) "4821") :=
  ⟨by decide, rfl, by decide,
   joinRoom_capacity_iff "J15" "J15" "4821" initialSession (storeAfterJoins 14)
     true ⟨"4821", "B", "active"⟩ (by decide) rfl (by decide)⟩

/-! ## Majority round count (`BankerBoard.jsx`) -/

/-- The `for (const rounds of roundCounts)` loop of `BankerBoard`: `cnt`
is the `counts` frequency map accumulated so far, `maxCount` the highest
frequency seen, `majority` the running `majorityRounds`.  On each element
`r` the frequency of `r` is bumped; a strictly higher frequency moves
`majority` to `r`; an equal frequency moves it to `r` only when `r` is
larger. -/
def majorityLoop (cnt : ℕ → ℕ) (maxCount majority : ℕ) : List ℕ → ℕ
  | [] => majority
  | r :: rest =>
    if maxCount < cnt r + 1 then
      majorityLoop (fun x => if x = r then cnt r + 1 else cnt x) (cnt r + 1) r rest
    else if cnt r + 1 = maxCount ∧ majority < r then
      majorityLoop (fun x => if x = r then cnt r + 1 else cnt x) maxCount r rest
    else
      majorityLoop (fun x => if x = r then cnt r + 1 else cnt x) maxCount majority rest

/-- `majorityRounds` as computed by `BankerBoard` from the list of the
active players' round counts (0 when the list is empty). -/
def majorityRounds (roundCounts : List ℕ) : ℕ :=
  majorityLoop (fun _ => 0) 0 0 roundCounts

/-- The full computation: active players are the non-banker rows, and the
round counts are their `round_history` lengths. -/
def bankerMajorityRounds (players : List PlayerRec) : ℕ :=
  majorityRounds
    ((players.filter (fun p => p.role == "player")).map
      (fun p => p.round_history.length))

/-- `M` is a most frequent element of `l`, and the largest one among those
tied for the highest frequency. -/
def IsMajority (l : List ℕ) (M : ℕ) : Prop :=
  M ∈ l ∧ (∀ r ∈ l, l.count r ≤ l.count M) ∧
    (∀ r ∈ l, l.count r = l.count M → r ≤ M)

theorem majorityLoop_cons (cnt : ℕ → ℕ) (maxCount majority a : ℕ)
    (rest : List ℕ) :
    majorityLoop cnt maxCount majority (a :: rest)
      = if maxCount < cnt a + 1 then
          majorityLoop (fun x => if x = a then cnt a + 1 else cnt x) (cnt a + 1) a rest
        else if cnt a + 1 = maxCount ∧ majority < a then
          majorityLoop (fun x => if x = a then cnt a + 1 else cnt x) maxCount a rest
        else
          majorityLoop (fun x => if x = a then cnt a + 1 else cnt x) maxCount majority rest := rfl

theorem majorityLoop_invariant (rest : List ℕ) :
    ∀ (p : List ℕ) (cnt : ℕ → ℕ) (maxCount majority : ℕ),
      (∀ r, cnt r = p.count r) →
      (∀ r, p.count r ≤ maxCount) →
      (p = [] → maxCount = 0) →
      (p ≠ [] → majority ∈ p ∧ p.count majority = maxCount ∧
        (∀ r ∈ p, p.count r = maxCount → r ≤ majority)) →
      p ++ rest ≠ [] →
      IsMajority (p ++ rest) (majorityLoop cnt maxCount majority rest) := by
  induction rest with
  | nil =>
      intro p cnt maxCount majority h1 h2 h3 h4 hne
      simp only [List.append_nil] at hne ⊢
      obtain ⟨hmem, hcnt, hties⟩ := h4 hne
      refine ⟨hmem, ?_, ?_⟩
      · intro r _
        rw [majorityLoop, hcnt]
        exact h2 r
      · intro r hr hcr
        rw [majorityLoop] at hcr ⊢
        exact hties r hr (by rw [hcr, hcnt])
  | cons a rest ih =>
      intro p cnt maxCount majority h1 h2 h3 h4 hne
      have hca : cnt a = p.count a := h1 a
      have hassoc : p ++ a :: rest = (p ++ [a]) ++ rest := by simp
      have hcountp' : ∀ r, (p ++ [a]).count r = p.count r + if r = a then 1 else 0 := by
        intro r
        by_cases hr : r = a
        · subst hr
          simp [List.count_append, List.count_cons]
        · simp [List.count_append, List.count_cons, hr, Ne.symm hr]
      have hcount_a : (p ++ [a]).count a = cnt a + 1 := by
        rw [hcountp' a, hca]
        simp
      have hcount_ne : ∀ r, r ≠ a → (p ++ [a]).count r = p.count r := by
        intro r hr
        rw [hcountp' r]
        simp [hr]
      have h1' : ∀ r, (fun x => if x = a then cnt a + 1 else cnt x) r
          = (p ++ [a]).count r := by
        intro r
        by_cases hr : r = a
        · subst hr; simp [hcount_a]
        · simp [hr, hcount_ne r hr, h1 r]
      have hne' : (p ++ [a]) ++ rest ≠ [] := by simp
      have hmem_a : a ∈ p ++ [a] := by simp
      rw [hassoc]
      by_cases hb1 : maxCount < cnt a + 1
      · rw [majorityLoop_cons, if_pos hb1]
        refine ih (p ++ [a]) _ (cnt a + 1) a h1' ?_ ?_ ?_ hne'
        · intro r
          by_cases hr : r = a
          · subst hr; rw [hcount_a]
          · rw [hcount_ne r hr]
            exact le_trans (h2 r) (Nat.le_of_lt hb1)
        · intro hcontra
          simp at hcontra
        · intro _
          refine ⟨hmem_a, hcount_a, ?_⟩
          intro r hr hcr
          by_cases hra : r = a
          · exact le_of_eq hra
          · exfalso
            rw [hcount_ne r hra] at hcr
            have := h2 r
            omega
      · by_cases hb2 : cnt a + 1 = maxCount ∧ majority < a
        · obtain ⟨hb2a, hb2b⟩ := hb2
          have hpne : p ≠ [] := by
            intro hp0
            have h0 := h3 hp0
            omega
          obtain ⟨hmmem, hmcnt, hmties⟩ := h4 hpne
          rw [majorityLoop_cons, if_neg hb1, if_pos ⟨hb2a, hb2b⟩]
          refine ih (p ++ [a]) _ maxCount a h1' ?_ ?_ ?_ hne'
          · intro r
            by_cases hr : r = a
            · subst hr
              rw [hcount_a]
              omega
            · rw [hcount_ne r hr]
              exact h2 r
          · intro hcontra
            simp at hcontra
          · intro _
            refine ⟨hmem_a, by rw [hcount_a]; exact hb2a, ?_⟩
            intro r hr hcr
            by_cases hra : r = a
            · exact le_of_eq hra
            · have hrp : r ∈ p := by
                rcases List.mem_append.mp hr with h | h
                · exact h
                · simp at h
                  exact absurd h hra
              rw [hcount_ne r hra] at hcr
              exact le_trans (hmties r hrp hcr) (Nat.le_of_lt hb2b)
        · have hcle : cnt a + 1 ≤ maxCount := Nat.le_of_not_lt hb1
          have hpne : p ≠ [] := by
            intro hp0
            have h0 := h3 hp0
            omega
          obtain ⟨hmmem, hmcnt, hmties⟩ := h4 hpne
          have hmaj_ne : majority ≠ a := by
            intro heq
            rw [heq] at hmcnt
            omega
          rw [majorityLoop_cons, if_neg hb1, if_neg hb2]
          refine ih (p ++ [a]) _ maxCount majority h1' ?_ ?_ ?_ hne'
          · intro r
            by_cases hr : r = a
            · subst hr
              rw [hcount_a]
              exact hcle
            · rw [hcount_ne r hr]
              exact h2 r
          · intro hcontra
            simp at hcontra
          · intro _
            refine ⟨List.mem_append_left _ hmmem, ?_, ?_⟩
            · rw [hcount_ne majority hmaj_ne]
              exact hmcnt
            · intro r hr hcr
              by_cases hra : r = a
              · subst hra
                rw [hcount_a] at hcr
                have hnotlt : ¬ majority < r := fun hlt => hb2 ⟨hcr, hlt⟩
                exact Nat.le_of_not_lt hnotlt
              · have hrp : r ∈ p := by
                  rcases List.mem_append.mp hr with h | h
                  · exact h
                  · simp at h
                    exact absurd h hra
                rw [hcount_ne r hra] at hcr
                exact hmties r hrp hcr

/-- C7: the majority round count computed by the banker board over the
current players (the non-banker rows) is 0 for an empty player list, and
otherwise is the most frequent round-history length among those players,
with ties among equally-frequent lengths broken toward the largest. -/
theorem bankerMajority_spec (players : List PlayerRec) :
    ((players.filter (fun p => p.role == "player")).map
        (fun p => p.round_history.length) = [] →
      bankerMajorityRounds players = 0) ∧
    ((players.filter (fun p => p.role == "player")).map
        (fun p => p.round_history.length) ≠ [] →
      IsMajority
        ((players.filter (fun p => p.role == "player")).map
          (fun p => p.round_history.length))
        (bankerMajorityRounds players)) := by
  constructor
  · intro h
    rw [bankerMajorityRounds, h]
    rfl
  · intro h
    have hinv := majorityLoop_invariant
      ((players.filter (fun p => p.role == "player")).map
        (fun p => p.round_history.length))
      [] (fun _ => 0) 0 0 (by simp) (by simp) (fun _ => rfl)
      (fun hcontra => absurd rfl hcontra) (by simpa using h)
    simpa [bankerMajorityRounds, majorityRounds] using hinv

/-- Players for the C7 witness: a banker row (excluded) and four players
with round counts 1, 1, 2, 2 — frequencies tie, so the majority is the
larger count 2. -/
def c7Players : List PlayerRec :=
  [⟨"B", "4821", "banker", "bank", 0, 0, 0, List.replicate 9 ⟨0, 0, 0, ""⟩⟩,
   ⟨"P1", "4821", "player", "a", 2, 6, 6, List.replicate 1 ⟨0, 0, 0, ""⟩⟩,
   ⟨"P2", "4821", "player", "b", 5, 0, 0, List.replicate 1 ⟨0, 0, 0, ""⟩⟩,
   ⟨"P3", "4821", "player", "c", 1, 2, 2, List.replicate 2 ⟨0, 0, 0, ""⟩⟩,
   ⟨"P4", "4821", "player", "d", 1, 2, 2, List.replicate 2 ⟨0, 0, 0, ""⟩⟩]

/-- Witness for C7 on the concrete tied player list. -/
theorem bankerMajority_spec_witness :
    ((c7Players.filter (fun p => p.role == "player")).map
        (fun p => p.round_history.length) ≠ []) ∧
    IsMajority
      ((c7Players.filter (fun p => p.role == "player")).map
        (fun p => p.round_history.length))
      (bankerMajorityRounds c7Players) :=
  ⟨by decide, (bankerMajority_spec c7Players).2 (by decide)⟩
